import Mathlib

/-!
Verification of the contact-directory program (`Task_1.py`): data model,
field validation, record/phone operations, and the upcoming-birthday query.
Machine integers do not occur; Python integers are modelled as `Nat`/`Int`.
Python exceptions are modelled with `Except VErr`; operations that mutate
state return the resulting state explicitly (also on error, since Python
leaves partially mutated objects behind).
-/

set_option autoImplicit false

namespace Task1

/-- Distinct `ValueError`s the program can raise, one constructor per
distinct message/source: phone-format failure, phone-not-found in
`edit_phone`, birthday parse failure (`Birthday.__init__` collapses all
parse errors into one message), contact-not-found in `delete`, and the
`date.replace` range errors that escape `get_upcoming_birthdays`. -/
inductive VErr where
  | phoneFormat
  | phoneNotFound
  | dateFormat
  | contactNotFound
  | yearOutOfRange
  | monthOutOfRange
  | dayOutOfRange
  deriving DecidableEq

/-! ## Unicode decimal digits

Python's `re` module matches `\d` against any character of Unicode
category Nd when the pattern is a `str`, and `int()` converts any Nd
digits to their decimal values.  `ndRanges` lists the Nd codepoint
ranges (start, length); every range is a union of aligned runs of ten
consecutive digits 0..9, so a digit's value is `(c - start) % 10`. -/
def ndRanges : List (Nat × Nat) :=
  [(0x30, 10), (0x660, 10), (0x6F0, 10), (0x7C0, 10), (0x966, 10),
   (0x9E6, 10), (0xA66, 10), (0xAE6, 10), (0xB66, 10), (0xBE6, 10),
   (0xC66, 10), (0xCE6, 10), (0xD66, 10), (0xDE6, 10), (0xE50, 10),
   (0xED0, 10), (0xF20, 10), (0x1040, 10), (0x1090, 10), (0x17E0, 10),
   (0x1810, 10), (0x1946, 10), (0x19D0, 10), (0x1A80, 10), (0x1A90, 10),
   (0x1B50, 10), (0x1BB0, 10), (0x1C40, 10), (0x1C50, 10), (0xA620, 10),
   (0xA8D0, 10), (0xA900, 10), (0xA9D0, 10), (0xA9F0, 10), (0xAA50, 10),
   (0xABF0, 10), (0xFF10, 10), (0x104A0, 10), (0x10D30, 10), (0x11066, 10),
   (0x110F0, 10), (0x11136, 10), (0x111D0, 10), (0x112F0, 10), (0x11450, 10),
   (0x114D0, 10), (0x11650, 10), (0x116C0, 10), (0x11730, 10), (0x118E0, 10),
   (0x11950, 10), (0x11C50, 10), (0x11D50, 10), (0x11DA0, 10), (0x11F50, 10),
   (0x16A60, 10), (0x16AC0, 10), (0x16B50, 10), (0x1D7CE, 50), (0x1E140, 10),
   (0x1E2F0, 10), (0x1E4F0, 10), (0x1E950, 10), (0x1FBF0, 10)]

/-- Membership in Unicode category Nd (what Python `\d` matches on `str`). -/
def isNd (n : Nat) : Bool :=
  ndRanges.any (fun r => decide (r.1 ≤ n) && decide (n < r.1 + r.2))

/-- Decimal value of an Nd digit (what Python `int()` assigns to it). -/
def ndVal (n : Nat) : Nat :=
  match ndRanges.find? (fun r => decide (r.1 ≤ n) && decide (n < r.1 + r.2)) with
  | some r => (n - r.1) % 10
  | none => 0

/-- `\d` on a `Char`. -/
def isNdC (c : Char) : Bool := isNd c.toNat

/-- Decimal value of a digit `Char`. -/
def ndValC (c : Char) : Nat := ndVal c.toNat

/-! ## Phone validation (`Phone.validate`, line 21-23) -/

/-- `re.fullmatch(r'\d{10}', value)`: exactly ten characters, each a
Unicode decimal digit. -/
def phoneOk (s : String) : Bool :=
  s.data.length == 10 && s.data.all isNdC

/-- `Phone(value)`: stores the value, then validates; on failure the
object is discarded, so only the success value matters. -/
def mkPhone (s : String) : Except VErr String :=
  if phoneOk s then .ok s else .error .phoneFormat

/-- The spec's phone shape: exactly ten ASCII decimal digits (stated for
comparison with `phoneOk`, which follows the source's `\d{10}`). -/
def tenAsciiDigits (s : String) : Bool :=
  s.data.length == 10 && s.data.all (fun c => decide ('0' ≤ c) && decide (c ≤ '9'))

/-! ## Calendar dates (Python `datetime.date`) -/

/-- A calendar date; only dates accepted by `mkDate` ever arise in the
program (Python `date` objects are valid by construction). -/
structure Date where
  year : Nat
  month : Nat
  day : Nat
  deriving DecidableEq

/-- Python's leap-year rule: `year % 4 == 0 and (year % 100 != 0 or year % 400 == 0)`. -/
def isLeap (y : Nat) : Bool :=
  y % 4 == 0 && (y % 100 != 0 || y % 400 == 0)

/-- Days in a month, as in CPython's `_days_in_month`. -/
def daysInMonth (y m : Nat) : Nat :=
  if m = 2 then (if isLeap y then 29 else 28)
  else if m = 4 ∨ m = 6 ∨ m = 9 ∨ m = 11 then 30
  else 31

/-- Whether (y, m, d) is a real Python calendar date
(`datetime._check_date_fields`): year 1..9999, month 1..12,
day 1..days-in-month. -/
def validDate (dt : Date) : Prop :=
  1 ≤ dt.year ∧ dt.year ≤ 9999 ∧ 1 ≤ dt.month ∧ dt.month ≤ 12 ∧
    1 ≤ dt.day ∧ dt.day ≤ daysInMonth dt.year dt.month

instance (dt : Date) : Decidable (validDate dt) := by
  unfold validDate; infer_instance

/-- `date(y, m, d)` / `date.replace`: raises `ValueError` on a field out
of range, in the order CPython checks the fields. -/
def mkDate (y m d : Nat) : Except VErr Date :=
  if ¬ (1 ≤ y ∧ y ≤ 9999) then .error .yearOutOfRange
  else if ¬ (1 ≤ m ∧ m ≤ 12) then .error .monthOutOfRange
  else if ¬ (1 ≤ d ∧ d ≤ daysInMonth y m) then .error .dayOutOfRange
  else .ok ⟨y, m, d⟩

/-- `dt.replace(year=y)`: rebuilds the date with the fields re-checked. -/
def replaceYear (dt : Date) (y : Nat) : Except VErr Date :=
  mkDate y dt.month dt.day

/-- Days before January 1 of year `y` (CPython `_days_before_year`). -/
def daysBeforeYear (y : Nat) : Nat :=
  365 * (y - 1) + (y - 1) / 4 - (y - 1) / 100 + (y - 1) / 400

/-- Days in year `y` before the first of month `m`. -/
def daysBeforeMonth (y m : Nat) : Nat :=
  ((List.range (m - 1)).map (fun i => daysInMonth y (i + 1))).sum

/-- `date.toordinal()`: day number counting 0001-01-01 as 1. -/
def toOrdinal (dt : Date) : Nat :=
  daysBeforeYear dt.year + daysBeforeMonth dt.year dt.month + dt.day

/-- `(a - b).days` for two dates. -/
def dayDiff (a b : Date) : Int :=
  (toOrdinal a : Int) - (toOrdinal b : Int)

/-! ## Birthday parsing (`Birthday.__init__`, lines 25-30)

`datetime.strptime(value, "%d.%m.%Y")` compiles the format to the regex
`(3[01]|[12]\d|0[1-9]|[1-9])\.(1[0-2]|0[1-9]|[1-9])\.(\d\d\d\d)`, requires
it to consume the whole string, converts each group with `int()`, and then
constructs `date(year, month, day)`.  Since a matched day/month is always
followed by a literal dot (never a digit), first-alternative-wins without
backtracking is equivalent to the regex here. -/

/-- Match `3[01]|[12]\d|0[1-9]|[1-9]` and convert with `int()`. -/
def matchDay : List Char → Option (Nat × List Char)
  | c1 :: c2 :: rest =>
    if c1 == '3' && (c2 == '0' || c2 == '1') then some (30 + (c2.toNat - 48), rest)
    else if (c1 == '1' || c1 == '2') && isNdC c2 then
      some ((c1.toNat - 48) * 10 + ndValC c2, rest)
    else if c1 == '0' && (decide ('1' ≤ c2) && decide (c2 ≤ '9')) then
      some (c2.toNat - 48, rest)
    else if decide ('1' ≤ c1) && decide (c1 ≤ '9') then
      some (c1.toNat - 48, c2 :: rest)
    else none
  | [c1] =>
    if decide ('1' ≤ c1) && decide (c1 ≤ '9') then some (c1.toNat - 48, []) else none
  | [] => none

/-- Match `1[0-2]|0[1-9]|[1-9]` and convert with `int()`. -/
def matchMonth : List Char → Option (Nat × List Char)
  | c1 :: c2 :: rest =>
    if c1 == '1' && (c2 == '0' || c2 == '1' || c2 == '2') then
      some (10 + (c2.toNat - 48), rest)
    else if c1 == '0' && (decide ('1' ≤ c2) && decide (c2 ≤ '9')) then
      some (c2.toNat - 48, rest)
    else if decide ('1' ≤ c1) && decide (c1 ≤ '9') then
      some (c1.toNat - 48, c2 :: rest)
    else none
  | [c1] =>
    if decide ('1' ≤ c1) && decide (c1 ≤ '9') then some (c1.toNat - 48, []) else none
  | [] => none

/-- Match `\d\d\d\d` and convert with `int()`. -/
def matchYear : List Char → Option (Nat × List Char)
  | c1 :: c2 :: c3 :: c4 :: rest =>
    if isNdC c1 && isNdC c2 && isNdC c3 && isNdC c4 then
      some (1000 * ndValC c1 + 100 * ndValC c2 + 10 * ndValC c3 + ndValC c4, rest)
    else none
  | _ => none

/-- `Birthday(value)`: `strptime` under `%d.%m.%Y` plus date construction;
every failure is re-raised as the single "Invalid date format" error. -/
def parseBirthday (s : String) : Except VErr Date :=
  match matchDay s.data with
  | some (d, '.' :: s2) =>
    match matchMonth s2 with
    | some (m, '.' :: s4) =>
      match matchYear s4 with
      | some (y, []) =>
        match mkDate y m d with
        | .ok dt => .ok dt
        | .error _ => .error .dateFormat
      | _ => .error .dateFormat
    | _ => .error .dateFormat
  | _ => .error .dateFormat

/-- ASCII digit character for `n < 10`. -/
def dChar (n : Nat) : Char := Char.ofNat (48 + n)

/-- Two-digit zero-padded rendering (`%d`, `%m`). -/
def pad2 (n : Nat) : List Char := [dChar (n / 10), dChar (n % 10)]

/-- Four-digit zero-padded rendering (`%Y`, as documented 0001..9999). -/
def pad4 (n : Nat) : List Char :=
  [dChar (n / 1000), dChar (n / 100 % 10), dChar (n / 10 % 10), dChar (n % 10)]

/-- `date.strftime('%d.%m.%Y')`. -/
def formatDate (dt : Date) : String :=
  ⟨pad2 dt.day ++ ('.' :: (pad2 dt.month ++ ('.' :: pad4 dt.year)))⟩

/-! ## Records (`Record`, lines 32-59) -/

/-- One contact: a name, an ordered phone list (each phone is its stored
string value), and an optional birthday. -/
structure Record where
  name : String
  phones : List String
  birthday : Option Date
  deriving DecidableEq

/-- `Record(name)`. -/
def Record.make (name : String) : Record := ⟨name, [], none⟩

/-- `add_phone`: `Phone(phone)` is constructed (and may raise) before the
append, so on error the list is unchanged. -/
def Record.addPhone (r : Record) (p : String) : Except VErr Unit × Record :=
  if phoneOk p then (.ok (), { r with phones := r.phones ++ [p] })
  else (.error .phoneFormat, r)

/-- `remove_phone`: keep the phones whose value differs from `p`. -/
def Record.removePhone (r : Record) (p : String) : Except VErr Unit × Record :=
  (.ok (), { r with phones := r.phones.filter (fun q => q != p) })

/-- The loop of `edit_phone` over the phone list: at the first phone equal
to `o`, the value is overwritten with `n` BEFORE `validate(n)` runs, so a
validation failure leaves `n` stored; if no phone matches, raise
"Phone number not found." with the list unchanged. -/
def editPhoneList : List String → String → String → Except VErr Unit × List String
  | [], _, _ => (.error .phoneNotFound, [])
  | p :: ps, o, n =>
    if p == o then
      if phoneOk n then (.ok (), n :: ps) else (.error .phoneFormat, n :: ps)
    else
      let r := editPhoneList ps o n
      (r.1, p :: r.2)

/-- `edit_phone(old_phone, new_phone)`. -/
def Record.editPhone (r : Record) (o n : String) : Except VErr Unit × Record :=
  let res := editPhoneList r.phones o n
  (res.1, { r with phones := res.2 })

/-- `add_birthday`: `Birthday(birthday)` is constructed (and may raise)
before the assignment, so on error the field is unchanged. -/
def Record.addBirthday (r : Record) (s : String) : Except VErr Unit × Record :=
  match parseBirthday s with
  | .ok dt => (.ok (), { r with birthday := some dt })
  | .error e => (.error e, r)

/-! ## The address book (`AddressBook`, lines 65-90)

`self.data` is a Python dict, insertion-ordered with unique keys: an
association list.  Assigning to an existing key overwrites in place
(keeping the position); assigning a fresh key appends. -/

/-- Insertion-ordered dictionary state of an `AddressBook`. -/
abbrev Book := List (String × Record)

/-- `self.data[k] = v`. -/
def dictSet (b : Book) (k : String) (v : Record) : Book :=
  if b.any (fun kv => kv.1 == k) then
    b.map (fun kv => if kv.1 == k then (k, v) else kv)
  else b ++ [(k, v)]

/-- `add_record(record)`: keys the entry by `record.name.value`. -/
def addRecord (b : Book) (r : Record) : Book :=
  dictSet b r.name r

/-- `delete(name)`: removes the entry, raising "Contact not found." (and
leaving the dict unchanged) when the key is absent. -/
def AddressBook.delete (b : Book) (name : String) : Except VErr Unit × Book :=
  if b.any (fun kv => kv.1 == name) then
    (.ok (), b.filter (fun kv => kv.1 != name))
  else (.error .contactNotFound, b)

/-- Mutating the record held at key `k` in place (a caller that obtained
the record object applies a method to it; the dict keeps the same key). -/
def mutateAt (b : Book) (k : String) (f : Record → Record) : Book :=
  b.map (fun kv => if kv.1 == k then (kv.1, f kv.2) else kv)

/-! ## The upcoming-birthday query (lines 78-90) -/

/-- The loop body for one record's birthday `b`:
`birthday_this_year = b.replace(year=today.year)`; if the day delta is
negative, recompute with `today.year + 1`; report whether the final delta
lies in `[0, 7]`. -/
def upcomingCheck (b today : Date) : Except VErr Bool :=
  match replaceYear b today.year with
  | .error e => .error e
  | .ok c =>
    if dayDiff c today < 0 then
      match replaceYear c (today.year + 1) with
      | .error e => .error e
      | .ok c2 => .ok (decide (0 ≤ dayDiff c2 today) && decide (dayDiff c2 today ≤ 7))
    else .ok (decide (0 ≤ dayDiff c today) && decide (dayDiff c today ≤ 7))

/-- The loop of `get_upcoming_birthdays` over `self.data.values()`: skip
records without a birthday; a `ValueError` from `date.replace` aborts the
whole call. -/
def collectUpcoming : List Record → Date → Except VErr (List Record)
  | [], _ => .ok []
  | r :: rs, today =>
    match r.birthday with
    | none => collectUpcoming rs today
    | some b =>
      match upcomingCheck b today with
      | .error e => .error e
      | .ok q =>
        match collectUpcoming rs today with
        | .error e => .error e
        | .ok rest => .ok (if q then r :: rest else rest)

/-- `get_upcoming_birthdays()`, with `datetime.now().date()` modelled as
the explicit reference date `today`. -/
def getUpcomingBirthdays (b : Book) (today : Date) : Except VErr (List Record) :=
  collectUpcoming (b.map Prod.snd) today

/-- Whether one record passes the window test (defined when its check
does not raise). -/
def qualifies (r : Record) (today : Date) : Bool :=
  match r.birthday with
  | none => false
  | some b =>
    match upcomingCheck b today with
    | .ok q => q
    | .error _ => false

/-- The same loop with the dictionary state threaded through explicitly,
as the method runs against `self`: the body only reads `self.data`, so
every step passes the state along unchanged. -/
def collectSt : List Record → Date → Book → Except VErr (List Record) × Book
  | [], _, st => (.ok [], st)
  | r :: rs, today, st =>
    match r.birthday with
    | none => collectSt rs today st
    | some b =>
      match upcomingCheck b today with
      | .error e => (.error e, st)
      | .ok q =>
        match collectSt rs today st with
        | (.error e, st2) => (.error e, st2)
        | (.ok rest, st2) => (.ok (if q then r :: rest else rest), st2)

/-- `get_upcoming_birthdays()` as a state transformer on the book. -/
def getUpcomingBirthdaysSt (b : Book) (today : Date) :
    Except VErr (List Record) × Book :=
  collectSt (b.map Prod.snd) today b

/-- The spec's description of the inclusion test for one birthday
(stated from the spec's words, for comparison with `upcomingCheck`):
replace the year by `today.year`, take the day delta, redo it with
`today.year + 1` when negative, include when the final delta is in
`[0, 7]`. -/
def specIncluded (b today : Date) : Prop :=
  (if dayDiff ⟨today.year, b.month, b.day⟩ today < 0 then
    dayDiff ⟨today.year + 1, b.month, b.day⟩ today
  else dayDiff ⟨today.year, b.month, b.day⟩ today) ∈ Set.Icc (0 : Int) 7

instance (b today : Date) : Decidable (specIncluded b today) := by
  unfold specIncluded; rw [Set.mem_Icc]; infer_instance

/-! ## Reachable directory states (for the key/name invariant)

A directory state is reachable when it arises from the empty book by any
sequence of core operations: `add_record`, `delete`, and the four record
mutations applied to an entry held in the book (Python callers obtain the
record object from the dict and mutate it in place).  Each mutation step
uses the state the operation leaves behind, also when it raises. -/
inductive Reach : Book → Prop where
  | empty : Reach []
  | add (r : Record) {b : Book} : Reach b → Reach (addRecord b r)
  | del (nm : String) {b : Book} : Reach b → Reach (AddressBook.delete b nm).2
  | addPh (k p : String) {b : Book} :
      Reach b → Reach (mutateAt b k (fun r => (Record.addPhone r p).2))
  | rmPh (k p : String) {b : Book} :
      Reach b → Reach (mutateAt b k (fun r => (Record.removePhone r p).2))
  | edPh (k o n : String) {b : Book} :
      Reach b → Reach (mutateAt b k (fun r => (Record.editPhone r o n).2))
  | addBd (k s : String) {b : Book} :
      Reach b → Reach (mutateAt b k (fun r => (Record.addBirthday r s).2))

end Task1


namespace Task1

lemma removePhone_phones (r : Record) (v : String) :
    (Record.removePhone r v).2.phones = r.phones.filter (fun q => q != v) := rfl

/-- Claim C9: `remove_phone(value)` never raises, removes exactly the
phones whose stored string equals `value` (all occurrences), keeps every
other phone with its multiplicity, preserves the relative order of the
survivors (the result is a sublist of the original), and leaves the
record unchanged when no phone matches. -/
theorem c9_remove_phone (r : Record) (v : String) :
    (Record.removePhone r v).1 = .ok () ∧
    (Record.removePhone r v).2.phones.Sublist r.phones ∧
    v ∉ (Record.removePhone r v).2.phones ∧
    (∀ p, p ≠ v → (Record.removePhone r v).2.phones.count p = r.phones.count p) ∧
    (v ∉ r.phones → Record.removePhone r v = (.ok (), r)) := by
  refine ⟨rfl, ?_, ?_, ?_, ?_⟩
  · rw [removePhone_phones]; exact List.filter_sublist _
  · rw [removePhone_phones]
    simp only [List.mem_filter, bne_self_eq_false, and_false, Bool.false_eq_true]
    simp
  · intro p hp
    rw [removePhone_phones]
    induction r.phones with
    | nil => rfl
    | cons q qs ih =>
      rw [List.filter_cons]
      by_cases hq : q = v
      · subst hq
        simp only [bne_self_eq_false, Bool.false_eq_true, if_neg, ite_false]
        rw [List.count_cons_of_ne hp, ih]
      · have hqv : (q != v) = true := by simpa [bne_iff_ne] using hq
        rw [hqv]
        simp only [if_true]
        rw [List.count_cons, List.count_cons, ih]
  · intro hv
    have hf : r.phones.filter (fun q => q != v) = r.phones := by
      apply List.filter_eq_self.mpr
      intro q hq
      simp only [bne_iff_ne, ne_eq]
      rintro rfl
      exact hv hq
    cases r with
    | mk nm ph bd =>
      simp only [Record.removePhone, Prod.mk.injEq, Record.mk.injEq]
      simpa using hf

end Task1

namespace Task1

lemma editPhoneList_not_mem (ps : List String) (o n : String) (h : o ∉ ps) :
    editPhoneList ps o n = (.error .phoneNotFound, ps) := by
  induction ps with
  | nil => rfl
  | cons p ps ih =>
    have hpo : (p == o) = false := by
      simp only [beq_eq_false_iff_ne, ne_eq]
      rintro rfl
      exact h (List.mem_cons_self _ _)
    have hmem : o ∉ ps := fun hm => h (List.mem_cons_of_mem _ hm)
    simp only [editPhoneList, hpo, Bool.false_eq_true, if_false, ih hmem]

lemma editPhoneList_found (l1 l2 : List String) (o n : String) (h : o ∉ l1) :
    editPhoneList (l1 ++ o :: l2) o n =
      (if phoneOk n then .ok () else .error .phoneFormat, l1 ++ n :: l2) := by
  induction l1 with
  | nil =>
    simp only [List.nil_append, editPhoneList, beq_self_eq_true, if_true]
    by_cases hn : phoneOk n <;> simp [hn]
  | cons p l1 ih =>
    have hpo : (p == o) = false := by
      simp only [beq_eq_false_iff_ne, ne_eq]
      rintro rfl
      exact h (List.mem_cons_self _ _)
    have hmem : o ∉ l1 := fun hm => h (List.mem_cons_of_mem _ hm)
    simp only [List.cons_append, editPhoneList, hpo, Bool.false_eq_true, if_false]
    simp only [List.append_eq, ih hmem]

/-- Claim C4: `edit_phone(old, new)` never touches the name or birthday;
when no phone equals `old` it fails with the not-found error and leaves
the record unchanged; when `old` first occurs after prefix `l1`, the
phone at that position is overwritten with `new`, and the call succeeds
exactly when `new` passes validation - on a validation failure the
invalid `new` is already stored at that position. -/
theorem c4_edit_phone (r : Record) (o n : String) :
    (Record.editPhone r o n).2.name = r.name ∧
    (Record.editPhone r o n).2.birthday = r.birthday ∧
    (o ∉ r.phones → Record.editPhone r o n = (.error .phoneNotFound, r)) ∧
    (∀ l1 l2, r.phones = l1 ++ o :: l2 → o ∉ l1 →
      (Record.editPhone r o n).2.phones = l1 ++ n :: l2 ∧
      (Record.editPhone r o n).1 =
        if phoneOk n then .ok () else .error .phoneFormat) := by
  refine ⟨rfl, rfl, ?_, ?_⟩
  · intro h
    cases r with
    | mk nm ph bd =>
      simp only [Record.editPhone, editPhoneList_not_mem ph o n h]
  · intro l1 l2 hsplit h1
    have := editPhoneList_found l1 l2 o n h1
    rw [← hsplit] at this
    constructor
    · show (editPhoneList r.phones o n).2 = _
      rw [this]
    · show (editPhoneList r.phones o n).1 = _
      rw [this]

/-- Claim C8: each failing core operation other than `edit_phone` leaves
its state exactly as it was: `add_phone` with an invalid value keeps the
phone list, `add_birthday` with an unparseable date keeps the birthday
field, and `delete` of an absent name keeps the directory mapping. -/
theorem c8_error_frame (r : Record) (p s : String) (b : Book) (nm : String) :
    (phoneOk p = false → Record.addPhone r p = (.error .phoneFormat, r)) ∧
    (∀ e, parseBirthday s = .error e → Record.addBirthday r s = (.error e, r)) ∧
    (b.all (fun kv => kv.1 != nm) = true →
      AddressBook.delete b nm = (.error .contactNotFound, b)) := by
  refine ⟨?_, ?_, ?_⟩
  · intro h
    simp only [Record.addPhone, h, Bool.false_eq_true, if_false]
  · intro e h
    simp only [Record.addBirthday, h]
  · intro h
    have hany : (b.any fun kv => kv.1 == nm) = false := by
      rw [List.any_eq_false]
      intro kv hkv
      have := List.all_eq_true.mp h kv hkv
      simpa [bne] using this
    simp only [AddressBook.delete, hany, Bool.false_eq_true, if_false]

end Task1

namespace Task1

lemma isNd_ascii (n : Nat) (h1 : 48 ≤ n) (h2 : n < 58) : isNd n = true := by
  unfold isNd ndRanges
  rw [List.any_cons]
  have : (decide (48 ≤ n) && decide (n < 48 + 10)) = true := by
    simp only [Bool.and_eq_true, decide_eq_true_eq]
    omega
  rw [this]
  rfl

lemma tenAsciiDigits_phoneOk {s : String} (h : tenAsciiDigits s = true) :
    phoneOk s = true := by
  unfold tenAsciiDigits at h
  unfold phoneOk
  simp only [Bool.and_eq_true, List.all_eq_true] at h ⊢
  refine ⟨h.1, fun c hc => ?_⟩
  have := h.2 c hc
  simp only [Bool.and_eq_true, decide_eq_true_eq] at this
  have h1 : 48 ≤ c.toNat := this.1
  have h2 : c.toNat ≤ 57 := this.2
  exact isNd_ascii c.toNat h1 (by omega)

/-- Claim C2 (amended): constructing a `Phone` succeeds, storing the input
string, for every string of exactly ten ASCII decimal digits; in general
construction succeeds exactly when the string consists of exactly ten
Unicode decimal digits (category Nd), because Python's `\d` on a `str`
pattern matches all of Nd, not only ASCII. -/
theorem c2_phone_validation (s : String) :
    (tenAsciiDigits s = true → mkPhone s = .ok s) ∧
    (mkPhone s = .ok s ↔ phoneOk s = true) := by
  constructor
  · intro h
    simp only [mkPhone, tenAsciiDigits_phoneOk h, if_true]
  · unfold mkPhone
    by_cases h : phoneOk s <;> simp [h]

/-- Claim C2 counterexample: the string of the ten Arabic-Indic digits
U+0660..U+0669 is not made of ASCII digits, yet `Phone` construction
succeeds on it, because `re.fullmatch(r'\d{10}', value)` matches any
Unicode decimal digits. -/
theorem c2_counterexample :
    tenAsciiDigits "٠١٢٣٤٥٦٧٨٩" = false ∧
    mkPhone "٠١٢٣٤٥٦٧٨٩" = .ok "٠١٢٣٤٥٦٧٨٩" := ⟨rfl, rfl⟩

/-- Claim C2 witness: the all-ASCII phone string succeeds concretely. -/
theorem c2_phone_validation_witness :
    mkPhone "0501234567" = .ok "0501234567" :=
  (c2_phone_validation "0501234567").1 rfl

end Task1

namespace Task1

lemma collectUpcoming_cons_none (r : Record) (rs : List Record) (today : Date)
    (h : r.birthday = none) :
    collectUpcoming (r :: rs) today = collectUpcoming rs today := by
  rw [collectUpcoming, h]

lemma collectUpcoming_cons_some (r : Record) (rs : List Record) (today : Date)
    (b : Date) (h : r.birthday = some b) :
    collectUpcoming (r :: rs) today =
      match upcomingCheck b today with
      | .error e => .error e
      | .ok q =>
        match collectUpcoming rs today with
        | .error e => .error e
        | .ok rest => .ok (if q then r :: rest else rest) := by
  rw [collectUpcoming, h]

lemma collect_ok_filter (rs : List Record) (today : Date) :
    ∀ res, collectUpcoming rs today = .ok res →
      res = rs.filter (fun r => qualifies r today) := by
  induction rs with
  | nil =>
    intro res h
    cases h
    rfl
  | cons r rs ih =>
    intro res h
    cases hb : r.birthday with
    | none =>
      rw [collectUpcoming_cons_none r rs today hb] at h
      have hq : qualifies r today = false := by simp [qualifies, hb]
      rw [List.filter_cons, hq]
      simp only [Bool.false_eq_true, if_false]
      exact ih res h
    | some b =>
      rw [collectUpcoming_cons_some r rs today b hb] at h
      split at h
      · exact Except.noConfusion h
      · rename_i q hc
        split at h
        · exact Except.noConfusion h
        · rename_i rest hrest
          cases h
          have hq : qualifies r today = q := by simp [qualifies, hb, hc]
          rw [List.filter_cons, hq, ih rest hrest]

lemma collect_ok_check (rs : List Record) (today : Date) (res : List Record)
    (h : collectUpcoming rs today = .ok res) :
    ∀ r ∈ rs, ∀ b, r.birthday = some b → ∃ q, upcomingCheck b today = .ok q := by
  induction rs generalizing res with
  | nil => intro r hr; cases hr
  | cons r0 rs ih =>
    intro r hr b hb
    cases hb0 : r0.birthday with
    | none =>
      rw [collectUpcoming_cons_none r0 rs today hb0] at h
      rcases List.mem_cons.mp hr with rfl | hmem
      · rw [hb] at hb0; cases hb0
      · exact ih res h r hmem b hb
    | some b0 =>
      rw [collectUpcoming_cons_some r0 rs today b0 hb0] at h
      split at h
      · exact Except.noConfusion h
      · rename_i q hc
        split at h
        · exact Except.noConfusion h
        · rename_i rest hrest
          rcases List.mem_cons.mp hr with rfl | hmem
          · rw [hb0] at hb
            cases hb
            exact ⟨q, hc⟩
          · exact ih rest hrest r hmem b hb

lemma mkDate_ok {y m d : Nat} {dt : Date} (h : mkDate y m d = .ok dt) :
    dt = ⟨y, m, d⟩ := by
  unfold mkDate at h
  split at h
  · exact Except.noConfusion h
  · split at h
    · exact Except.noConfusion h
    · split at h
      · exact Except.noConfusion h
      · cases h; rfl

lemma upcomingCheck_ok_iff {b today : Date} {q : Bool}
    (h : upcomingCheck b today = .ok q) : q = true ↔ specIncluded b today := by
  rw [upcomingCheck] at h
  split at h
  · exact Except.noConfusion h
  · rename_i c h1
    have hc : c = ⟨today.year, b.month, b.day⟩ := mkDate_ok h1
    subst hc
    unfold specIncluded
    rw [Set.mem_Icc]
    split at h
    · rename_i hneg
      split at h
      · exact Except.noConfusion h
      · rename_i c2 h2
        have hc2 : c2 = ⟨today.year + 1, b.month, b.day⟩ := mkDate_ok h2
        subst hc2
        cases h
        rw [if_pos hneg]
        simp
    · rename_i hpos
      cases h
      rw [if_neg hpos]
      simp

end Task1

namespace Task1

/-- Claim C5: whenever the query returns, its result is exactly the
insertion-ordered filter of the book's records by the window test, in
the entry iteration order - never a date-sorted reordering. -/
theorem c5_order (book : Book) (today : Date) (res : List Record)
    (h : getUpcomingBirthdays book today = .ok res) :
    res = (book.map Prod.snd).filter (fun r => qualifies r today) :=
  collect_ok_filter (book.map Prod.snd) today res h

/-- Claim C5 witness: with today = 10.06.2024, a book holding Ann
(birthday 16.06, six days away) before Bob (birthday 11.06, one day
away) is returned in insertion order Ann, Bob - not proximity order. -/
theorem c5_order_witness :
    ([⟨"Ann", [], some ⟨2000, 6, 16⟩⟩, ⟨"Bob", [], some ⟨2000, 6, 11⟩⟩] : List Record) =
      (([("Ann", ⟨"Ann", [], some ⟨2000, 6, 16⟩⟩),
         ("Bob", ⟨"Bob", [], some ⟨2000, 6, 11⟩⟩)] : Book).map Prod.snd).filter
        (fun r => qualifies r ⟨2024, 6, 10⟩) :=
  c5_order _ ⟨2024, 6, 10⟩ _ (by rfl)

lemma collectSt_cons_none (r : Record) (rs : List Record) (today : Date)
    (st : Book) (h : r.birthday = none) :
    collectSt (r :: rs) today st = collectSt rs today st := by
  rw [collectSt, h]

lemma collectSt_cons_some (r : Record) (rs : List Record) (today : Date)
    (st : Book) (b : Date) (h : r.birthday = some b) :
    collectSt (r :: rs) today st =
      match upcomingCheck b today with
      | .error e => (.error e, st)
      | .ok q =>
        match collectSt rs today st with
        | (.error e, st2) => (.error e, st2)
        | (.ok rest, st2) => (.ok (if q then r :: rest else rest), st2) := by
  rw [collectSt, h]

lemma collectSt_snd (today : Date) (rs : List Record) (st : Book) :
    (collectSt rs today st).2 = st := by
  induction rs with
  | nil => rfl
  | cons r rs ih =>
    cases hb : r.birthday with
    | none => rw [collectSt_cons_none r rs today st hb]; exact ih
    | some b =>
      rw [collectSt_cons_some r rs today st b hb]
      split
      · rfl
      · split
        · rename_i e st2 hrest
          have := ih
          rw [hrest] at this
          exact this
        · rename_i rest st2 hrest
          have := ih
          rw [hrest] at this
          exact this

lemma collectSt_fst (today : Date) (rs : List Record) (st : Book) :
    (collectSt rs today st).1 = collectUpcoming rs today := by
  induction rs with
  | nil => rfl
  | cons r rs ih =>
    cases hb : r.birthday with
    | none =>
      rw [collectSt_cons_none r rs today st hb,
        collectUpcoming_cons_none r rs today hb]
      exact ih
    | some b =>
      rw [collectSt_cons_some r rs today st b hb,
        collectUpcoming_cons_some r rs today b hb]
      cases hc : upcomingCheck b today with
      | error e => rfl
      | ok q =>
        cases hrest : collectSt rs today st with
        | mk e1 st2 =>
          have := ih
          rw [hrest] at this
          rw [← this]
          cases e1 <;> rfl

/-- Claim C10: the query is read-only: the dictionary state it runs
against comes back unchanged whether it returns normally or raises, and
every record of a normal result is one of the stored record values (the
loop only collects references to them). -/
theorem c10_read_only (book : Book) (today : Date) :
    (getUpcomingBirthdaysSt book today).2 = book ∧
    (∀ res, (getUpcomingBirthdaysSt book today).1 = .ok res →
      ∀ r ∈ res, r ∈ book.map Prod.snd) := by
  constructor
  · exact collectSt_snd today (book.map Prod.snd) book
  · intro res h r hr
    rw [getUpcomingBirthdaysSt, collectSt_fst] at h
    have hfilter := collect_ok_filter (book.map Prod.snd) today res h
    rw [hfilter] at hr
    exact (List.mem_filter.mp hr).1

/-- Claim C10 witness: on a concrete one-entry book the returned state is
the book itself and the single returned record is the stored one. -/
theorem c10_read_only_witness :
    (getUpcomingBirthdaysSt [("A", ⟨"A", [], some ⟨1990, 6, 12⟩⟩)] ⟨2024, 6, 10⟩).2 =
      [("A", ⟨"A", [], some ⟨1990, 6, 12⟩⟩)] ∧
    (⟨"A", [], some ⟨1990, 6, 12⟩⟩ : Record) ∈
      ([("A", ⟨"A", [], some ⟨1990, 6, 12⟩⟩)] : Book).map Prod.snd :=
  ⟨(c10_read_only [("A", ⟨"A", [], some ⟨1990, 6, 12⟩⟩)] ⟨2024, 6, 10⟩).1,
    (c10_read_only [("A", ⟨"A", [], some ⟨1990, 6, 12⟩⟩)] ⟨2024, 6, 10⟩).2
      [⟨"A", [], some ⟨1990, 6, 12⟩⟩] (by rfl) _ (by decide)⟩

/-- Claim C1: whenever the query returns, a stored record with a birthday
is in the result exactly when the claim's candidate computation (year
replaced by `today.year`, day delta, recomputed with `today.year + 1`
when negative) puts the final delta in `[0, 7]`. -/
theorem c1_window (book : Book) (today : Date) (res : List Record)
    (k : String) (r : Record) (b : Date)
    (h : getUpcomingBirthdays book today = .ok res)
    (hr : (k, r) ∈ book) (hb : r.birthday = some b) :
    r ∈ res ↔ specIncluded b today := by
  have hmem : r ∈ book.map Prod.snd := List.mem_map.mpr ⟨(k, r), hr, rfl⟩
  obtain ⟨q, hq⟩ :=
    collect_ok_check (book.map Prod.snd) today res h r hmem b hb
  have hfilter := collect_ok_filter (book.map Prod.snd) today res h
  rw [hfilter, List.mem_filter]
  have hqual : qualifies r today = q := by simp [qualifies, hb, hq]
  rw [hqual, ← upcomingCheck_ok_iff hq]
  simp [hmem]

/-- Claim C1 witness: with today = 28.12.2024, a record with birthday
02.01.1990 is included: the candidate wraps to 02.01.2025, delta 5. -/
theorem c1_window_witness :
    (⟨"A", [], some ⟨1990, 1, 2⟩⟩ : Record) ∈
      ([⟨"A", [], some ⟨1990, 1, 2⟩⟩] : List Record) :=
  (c1_window [("A", ⟨"A", [], some ⟨1990, 1, 2⟩⟩)] ⟨2024, 12, 28⟩
      [⟨"A", [], some ⟨1990, 1, 2⟩⟩] "A" ⟨"A", [], some ⟨1990, 1, 2⟩⟩ ⟨1990, 1, 2⟩
      (by rfl) (by decide) rfl).mpr (by decide)

end Task1

namespace Task1

/-- Claim C4 witness: editing "1111111111" to "2222222222" on a record
holding exactly ["1111111111"] succeeds and stores the new value. -/
theorem c4_edit_phone_witness :
    (Record.editPhone ⟨"A", ["1111111111"], none⟩ "1111111111" "2222222222").2.phones =
      ["2222222222"] :=
  ((c4_edit_phone ⟨"A", ["1111111111"], none⟩ "1111111111" "2222222222").2.2.2
    [] [] rfl (by simp)).1

/-- Claim C8 witness: adding an invalid phone to a concrete record fails
and returns the record unchanged. -/
theorem c8_error_frame_witness :
    Record.addPhone ⟨"A", ["0501234567"], none⟩ "123" =
      (.error .phoneFormat, ⟨"A", ["0501234567"], none⟩) :=
  (c8_error_frame ⟨"A", ["0501234567"], none⟩ "123" "x" [] "n").1 rfl

/-- Claim C9 witness: removing "1111111111" from a concrete phone list
keeps the multiplicity of the other value. -/
theorem c9_remove_phone_witness :
    (Record.removePhone ⟨"A", ["1111111111", "2222222222", "1111111111"], none⟩
        "1111111111").2.phones.count "2222222222" =
      (["1111111111", "2222222222", "1111111111"] : List String).count "2222222222" :=
  (c9_remove_phone ⟨"A", ["1111111111", "2222222222", "1111111111"], none⟩
    "1111111111").2.2.2.1 "2222222222" (by decide)

/-! ## Claim C6: totality of the query -/

lemma day_le_daysInMonth {b : Date} (hv : validDate b)
    (hnot : ¬(b.month = 2 ∧ b.day = 29)) (y : Nat) :
    b.day ≤ daysInMonth y b.month := by
  obtain ⟨-, -, -, -, -, hd⟩ := hv
  by_cases hm : b.month = 2
  · have h29 : b.day ≠ 29 := fun h => hnot ⟨hm, h⟩
    rw [daysInMonth, if_pos hm] at hd ⊢
    split at hd <;> split <;> omega
  · rw [daysInMonth, if_neg hm] at hd ⊢
    exact hd

lemma mkDate_ok_of {y m d : Nat} (hy : 1 ≤ y ∧ y ≤ 9999) (hm : 1 ≤ m ∧ m ≤ 12)
    (hd : 1 ≤ d ∧ d ≤ daysInMonth y m) : mkDate y m d = .ok ⟨y, m, d⟩ := by
  rw [mkDate, if_neg (not_not_intro hy), if_neg (not_not_intro hm),
    if_neg (not_not_intro hd)]

lemma upcomingCheck_total {b today : Date} (hv : validDate b)
    (hnot : ¬(b.month = 2 ∧ b.day = 29))
    (hy1 : 1 ≤ today.year) (hy2 : today.year ≤ 9998) :
    ∃ q, upcomingCheck b today = .ok q := by
  have hm1 := hv.2.2.1
  have hm2 := hv.2.2.2.1
  have hd1 := hv.2.2.2.2.1
  have e1 : replaceYear b today.year = .ok ⟨today.year, b.month, b.day⟩ :=
    mkDate_ok_of ⟨hy1, by omega⟩ ⟨hm1, hm2⟩ ⟨hd1, day_le_daysInMonth hv hnot _⟩
  have e2 : replaceYear ⟨today.year, b.month, b.day⟩ (today.year + 1) =
      .ok ⟨today.year + 1, b.month, b.day⟩ :=
    mkDate_ok_of ⟨by omega, by omega⟩ ⟨hm1, hm2⟩ ⟨hd1, day_le_daysInMonth hv hnot _⟩
  rw [upcomingCheck, e1]
  simp only
  split
  · rw [e2]
    exact ⟨_, rfl⟩
  · exact ⟨_, rfl⟩

lemma collect_total (rs : List Record) (today : Date)
    (h : ∀ r ∈ rs, ∀ b, r.birthday = some b → ∃ q, upcomingCheck b today = .ok q) :
    ∃ res, collectUpcoming rs today = .ok res := by
  induction rs with
  | nil => exact ⟨[], rfl⟩
  | cons r rs ih =>
    have htail : ∀ r0 ∈ rs, ∀ b, r0.birthday = some b →
        ∃ q, upcomingCheck b today = .ok q :=
      fun r0 h0 b hb => h r0 (List.mem_cons_of_mem _ h0) b hb
    obtain ⟨rest, hrest⟩ := ih htail
    cases hb : r.birthday with
    | none =>
      rw [collectUpcoming_cons_none r rs today hb]
      exact ⟨rest, hrest⟩
    | some b =>
      obtain ⟨q, hq⟩ := h r (List.mem_cons_self _ _) b hb
      rw [collectUpcoming_cons_some r rs today b hb, hq, hrest]
      exact ⟨_, rfl⟩

/-- Claim C6 (amended): the query raises a date-construction `ValueError`
instead of returning when some stored birthday is February 29 and the
candidate year it is mapped to is not a leap year; it is total on every
directory whose birthdays are valid dates other than February 29
(for reference years below the `date` upper bound 9999). -/
theorem c6_total_no_feb29 (book : Book) (today : Date)
    (hy1 : 1 ≤ today.year) (hy2 : today.year ≤ 9998)
    (hb : ∀ kr ∈ book, ∀ b, kr.2.birthday = some b →
      validDate b ∧ ¬(b.month = 2 ∧ b.day = 29)) :
    ∃ res, getUpcomingBirthdays book today = .ok res := by
  apply collect_total
  intro r hr b hbd
  obtain ⟨kr, hkr, rfl⟩ := List.mem_map.mp hr
  obtain ⟨hv, hnot⟩ := hb kr hkr b hbd
  exact upcomingCheck_total hv hnot hy1 hy2

/-- Claim C6 counterexample: "29.02.2020" is a syntactically valid
birthday, yet with reference date 01.01.2025 (2025 is not a leap year)
the query raises the day-out-of-range `ValueError` from `date.replace`
instead of returning a sequence. -/
theorem c6_counterexample :
    parseBirthday "29.02.2020" = .ok ⟨2020, 2, 29⟩ ∧
    getUpcomingBirthdays [("A", ⟨"A", [], some ⟨2020, 2, 29⟩⟩)] ⟨2025, 1, 1⟩ =
      .error .dayOutOfRange := ⟨rfl, rfl⟩

/-- Claim C6 witness: a book whose only birthday is 15.06.1990 returns
normally for today = 10.06.2024. -/
theorem c6_total_no_feb29_witness :
    ∃ res, getUpcomingBirthdays [("A", ⟨"A", [], some ⟨1990, 6, 15⟩⟩)] ⟨2024, 6, 10⟩ =
      .ok res :=
  c6_total_no_feb29 [("A", ⟨"A", [], some ⟨1990, 6, 15⟩⟩)] ⟨2024, 6, 10⟩
    (by decide) (by decide) (by decide)

end Task1

namespace Task1

lemma addPhone_name (r : Record) (p : String) :
    (Record.addPhone r p).2.name = r.name := by
  rw [Record.addPhone]
  split <;> rfl

lemma removePhone_name (r : Record) (p : String) :
    (Record.removePhone r p).2.name = r.name := rfl

lemma editPhone_name (r : Record) (o n : String) :
    (Record.editPhone r o n).2.name = r.name := rfl

lemma addBirthday_name (r : Record) (s : String) :
    (Record.addBirthday r s).2.name = r.name := by
  rw [Record.addBirthday]
  split <;> rfl

lemma mutateAt_names {b : Book} {k : String} {f : Record → Record}
    (hb : ∀ kr ∈ b, kr.2.name = kr.1) (hf : ∀ r, (f r).name = r.name) :
    ∀ kr ∈ mutateAt b k f, kr.2.name = kr.1 := by
  intro kr hkr
  rw [mutateAt] at hkr
  obtain ⟨kv, hkv, heq⟩ := List.mem_map.mp hkr
  by_cases hk : kv.1 == k
  · rw [if_pos hk] at heq
    subst heq
    exact (hf kv.2).trans (hb kv hkv)
  · rw [if_neg hk] at heq
    subst heq
    exact hb kv hkv

/-- Claim C7: in every directory state reachable from the empty book by
`add_record`, `delete`, and the in-place record mutations on held
entries, every entry's stored record name equals its key. -/
theorem c7_name_key_invariant (b : Book) (h : Reach b) :
    ∀ kr ∈ b, kr.2.name = kr.1 := by
  induction h with
  | empty => intro kr hkr; cases hkr
  | add r hb ih =>
    intro kr hkr
    rw [addRecord, dictSet] at hkr
    split at hkr
    · obtain ⟨kv, hkv, heq⟩ := List.mem_map.mp hkr
      by_cases hk : kv.1 == r.name
      · rw [if_pos hk] at heq
        subst heq; rfl
      · rw [if_neg hk] at heq
        subst heq; exact ih kv hkv
    · rcases List.mem_append.mp hkr with hmem | hmem
      · exact ih kr hmem
      · cases List.mem_singleton.mp hmem; rfl
  | del nm hb ih =>
    intro kr hkr
    rw [AddressBook.delete] at hkr
    split at hkr
    · exact ih kr (List.mem_filter.mp hkr).1
    · exact ih kr hkr
  | addPh k p hb ih => exact mutateAt_names ih (fun r => addPhone_name r p)
  | rmPh k p hb ih => exact mutateAt_names ih (fun r => removePhone_name r p)
  | edPh k o n hb ih => exact mutateAt_names ih (fun r => editPhone_name r o n)
  | addBd k s hb ih => exact mutateAt_names ih (fun r => addBirthday_name r s)

/-- Claim C7 witness: in the book reached by adding one record and then
adding a phone to it, the held entry's record name equals its key. -/
theorem c7_name_key_invariant_witness :
    (("Ann", (⟨"Ann", ["0501234567"], none⟩ : Record)) : String × Record).2.name =
      ("Ann", (⟨"Ann", ["0501234567"], none⟩ : Record)).1 :=
  c7_name_key_invariant _
    (Reach.addPh "Ann" "0501234567" (Reach.add ⟨"Ann", [], none⟩ Reach.empty))
    ("Ann", ⟨"Ann", ["0501234567"], none⟩) (by decide)

end Task1

namespace Task1

lemma daysInMonth_le (y m : Nat) : daysInMonth y m ≤ 31 := by
  rw [daysInMonth]
  split
  · split <;> omega
  · split <;> omega

lemma isNdC_dChar (k : Nat) (h : k ≤ 9) : isNdC (dChar k) = true := by
  interval_cases k <;> decide

lemma ndValC_dChar (k : Nat) (h : k ≤ 9) : ndValC (dChar k) = k := by
  interval_cases k <;> decide

lemma matchDay_pad2 (d : Nat) (h1 : 1 ≤ d) (h2 : d ≤ 31) (rest : List Char) :
    matchDay (pad2 d ++ rest) = some (d, rest) := by
  interval_cases d <;> rfl

lemma matchMonth_pad2 (m : Nat) (h1 : 1 ≤ m) (h2 : m ≤ 12) (rest : List Char) :
    matchMonth (pad2 m ++ rest) = some (m, rest) := by
  interval_cases m <;> rfl

lemma matchYear_pad4 (y : Nat) (h : y ≤ 9999) (rest : List Char) :
    matchYear (pad4 y ++ rest) = some (y, rest) := by
  have h1 : y / 1000 ≤ 9 := by omega
  have h2 : y / 100 % 10 ≤ 9 := by omega
  have h3 : y / 10 % 10 ≤ 9 := by omega
  have h4 : y % 10 ≤ 9 := by omega
  show matchYear (dChar (y / 1000) :: dChar (y / 100 % 10) :: dChar (y / 10 % 10) ::
    dChar (y % 10) :: rest) = some (y, rest)
  rw [matchYear, isNdC_dChar _ h1, isNdC_dChar _ h2, isNdC_dChar _ h3, isNdC_dChar _ h4]
  simp only [Bool.and_self, if_true]
  rw [ndValC_dChar _ h1, ndValC_dChar _ h2, ndValC_dChar _ h3, ndValC_dChar _ h4]
  have : 1000 * (y / 1000) + 100 * (y / 100 % 10) + 10 * (y / 10 % 10) + y % 10 = y := by
    omega
  rw [this]

lemma matchYear_pad4_nil (y : Nat) (h : y ≤ 9999) :
    matchYear (pad4 y) = some (y, []) := by
  have := matchYear_pad4 y h []
  rwa [List.append_nil] at this

/-- Claim C3 (amended): every real calendar date rendered in strict
`DD.MM.YYYY` (zero-padded) parses back to itself, so parsing and
formatting round-trip on strict-format strings; the calendrically
invalid "31.02.2020" is rejected; but `%d`/`%m` in `strptime` also
accept one-digit fields, so the claim's example "1.1.2020" in fact
parses (to 01.01.2020) instead of failing. -/
theorem c3_date_parsing :
    (∀ dt : Date, validDate dt → parseBirthday (formatDate dt) = .ok dt) ∧
    parseBirthday "31.02.2020" = .error .dateFormat ∧
    parseBirthday "1.1.2020" = .ok ⟨2020, 1, 1⟩ ∧
    formatDate ⟨2020, 1, 1⟩ = "01.01.2020" := by
  refine ⟨?_, rfl, rfl, rfl⟩
  intro dt h
  cases dt with
  | mk y m d =>
    obtain ⟨hy1, hy2, hm1, hm2, hd1, hd2⟩ := h
    have hd31 : d ≤ 31 := le_trans hd2 (daysInMonth_le y m)
    have hmk : mkDate y m d = .ok ⟨y, m, d⟩ :=
      mkDate_ok_of ⟨hy1, hy2⟩ ⟨hm1, hm2⟩ ⟨hd1, hd2⟩
    simp only [formatDate, parseBirthday, matchDay_pad2 d hd1 hd31,
      matchMonth_pad2 m hm1 hm2, matchYear_pad4_nil y hy2, hmk]

/-- Claim C3 counterexample: the claim (with the spec) says "1.1.2020"
must be rejected, but the program parses it, because Python's `%d` and
`%m` patterns accept one-digit values. -/
theorem c3_counterexample : parseBirthday "1.1.2020" = .ok ⟨2020, 1, 1⟩ := rfl

/-- Claim C3 witness: a concrete strict-format round trip. -/
theorem c3_date_parsing_witness :
    parseBirthday (formatDate ⟨2024, 5, 17⟩) = .ok ⟨2024, 5, 17⟩ :=
  c3_date_parsing.1 ⟨2024, 5, 17⟩ (by decide)

end Task1
